import Mathlib

/-!
Verification model of the walkers map widget core: the dual-mode coordinate
projector (`projector.rs`), the center-of-view state machine (`center.rs`),
and the bounded-concurrency tile download scheduler (`download.rs`).

Floating point values (`f32`, `f64`) are modelled by real numbers, except the
`f32` inertia decay amount of the center state machine, which is modelled by a
rational number (every finite `f32` is a rational) so that the comparison in
`update_movement` stays executable.  Machine integers (`u8`, `u32`) are
modelled by naturals, with explicit `% 2^8` / `% 2^32` wrapping and explicit
saturation where the Rust code converts floats to unsigned integers.
-/

namespace Walkers

/-- Model of the UI toolkit's two dimensional vector types (`egui::Pos2` and
`egui::Vec2`, which differ only nominally): an x and a y real number. -/
@[ext]
structure V2 where
  x : ℝ
  y : ℝ

instance : Add V2 := ⟨fun a b => ⟨a.x + b.x, a.y + b.y⟩⟩

instance : Sub V2 := ⟨fun a b => ⟨a.x - b.x, a.y - b.y⟩⟩

@[simp]
theorem V2.add_x (a b : V2) : (a + b).x = a.x + b.x := rfl

@[simp]
theorem V2.add_y (a b : V2) : (a + b).y = a.y + b.y := rfl

@[simp]
theorem V2.sub_x (a b : V2) : (a - b).x = a.x - b.x := rfl

@[simp]
theorem V2.sub_y (a b : V2) : (a - b).y = a.y - b.y := rfl

/-- Scalar multiple of a vector, as in the Rust `Vec2 * f32` product. -/
def V2.smul (c : ℝ) (v : V2) : V2 := ⟨c * v.x, c * v.y⟩

/-- Modelled from the spec: `units.rs` is not among the provided sources.  A
`Position` is a two component floating point coordinate; in global mode the
first component is the longitude and the second the latitude, in degrees. -/
@[ext]
structure Position where
  x : ℝ
  y : ℝ

def Position.new (x y : ℝ) : Position := ⟨x, y⟩

def Position.from_lon_lat (lon lat : ℝ) : Position := ⟨lon, lat⟩

def Position.lon (p : Position) : ℝ := p.x

def Position.lat (p : Position) : ℝ := p.y

/-- Rust `f64::to_radians`: degrees to radians. -/
noncomputable def toRadians (x : ℝ) : ℝ := x * (Real.pi / 180)

/-- Rust `f64::to_degrees`: radians to degrees. -/
noncomputable def toDegrees (x : ℝ) : ℝ := x * (180 / Real.pi)

/-- Modelled from the spec: `tiles.rs` / `mercator.rs` are not among the
provided sources.  A `TileId` is the grid address of one tile: `x` and `y`
are `u32` values and `zoom` a `u8` value, modelled as naturals. -/
structure TileId where
  x : ℕ
  y : ℕ
  zoom : ℕ
  deriving DecidableEq, Repr

/-- Model of the UI toolkit rectangle (`egui::Rect`); the projector consults
only its center point, so only that point is carried. -/
structure Rect where
  center : V2

/-- Modelled from the spec: `map_memory.rs` is not among the provided sources.
The projector reads from it the current zoom (an `f64`) and the optional
detached center position (`center_mode.position()`). -/
structure MapMemory where
  zoom : ℝ
  center_mode_position : Option Position

/-- The internal tile size in pixels (`crate::TILE_SIZE`); modelled from the
spec and the code comments: walkers uses 256 pixel tiles internally. -/
def TILE_SIZE : ℕ := 256

/-- Number of pixels across the whole world bitmap at a zoom level:
`2^zoom * TILE_SIZE`. -/
noncomputable def total_pixels (zoom : ℝ) : ℝ := (2 : ℝ) ^ zoom * (TILE_SIZE : ℝ)

/-- The local (euclidean) projector: a clip rectangle, the map memory
snapshot, and the externally supplied live position. -/
structure LocalProjector where
  clip_rect : Rect
  memory : MapMemory
  my_position : Position

/-- How many local distance units one screen point covers at a zoom level:
`0.001 * 2^(20 - zoom)`. -/
noncomputable def LocalProjector.units_per_point (zoom : ℝ) : ℝ :=
  0.001 * (2 : ℝ) ^ ((20 : ℝ) - zoom)

/-- Local scale: the zoom-only units-per-point factor; the position argument
is ignored by the code. -/
noncomputable def LocalProjector.scale_pixel_per_meter
    (l : LocalProjector) (_position : Position) : ℝ :=
  LocalProjector.units_per_point l.memory.zoom

/-- The local projector has no tile grid: `tile_id` always returns `None`. -/
def LocalProjector.tile_id (_l : LocalProjector) (_pos : Position) (_zoom : ℕ)
    (_tile_size : ℕ) : Option TileId :=
  Option.none

/-- Local world-to-bitmap projection: scale by units-per-point and flip y. -/
noncomputable def LocalProjector.bitmap_project
    (l : LocalProjector) (position : Position) : V2 :=
  let units_per_point := LocalProjector.units_per_point l.memory.zoom
  ⟨position.x / units_per_point, -(position.y / units_per_point)⟩

/-- Local bitmap-to-world projection: the inverse scale-and-flip. -/
noncomputable def LocalProjector.bitmap_unproject
    (l : LocalProjector) (pos : V2) : Position :=
  let units_per_point := LocalProjector.units_per_point l.memory.zoom
  Position.new (pos.x * units_per_point) (-pos.y * units_per_point)

/-- Shared screen transform: recenter the bitmap point on the anchor (the
detached center if any, else the live position) and the viewport center. -/
noncomputable def LocalProjector.bitmap_to_screen
    (l : LocalProjector) (pos : V2) : V2 :=
  let map_center_projected_position :=
    l.bitmap_project (l.memory.center_mode_position.getD l.my_position)
  pos - map_center_projected_position + l.clip_rect.center

/-- Inverse of the shared screen transform. -/
noncomputable def LocalProjector.bitmap_from_screen
    (l : LocalProjector) (pos : V2) : V2 :=
  let map_center_projected_position :=
    l.bitmap_project (l.memory.center_mode_position.getD l.my_position)
  map_center_projected_position + (pos - l.clip_rect.center)

/-- Public projection: bitmap projection followed by the screen transform. -/
noncomputable def LocalProjector.project (l : LocalProjector) (position : Position) : V2 :=
  l.bitmap_to_screen (l.bitmap_project position)

/-- Public unprojection: inverse screen transform, then bitmap unprojection. -/
noncomputable def LocalProjector.unproject (l : LocalProjector) (pos : V2) : Position :=
  l.bitmap_unproject (l.bitmap_from_screen pos)

/-- Default `shift` of the projector trait: nudge a position by a pixel
offset at the bitmap layer. -/
noncomputable def LocalProjector.shift (l : LocalProjector) (pos : Position) (offset : V2) :
    Position :=
  l.bitmap_unproject (l.bitmap_project pos - offset)

/-- The global (web-Mercator) projector: a clip rectangle, the map memory
snapshot, and the externally supplied live position. -/
structure GlobalProjector where
  clip_rect : Rect
  memory : MapMemory
  my_position : Position

/-- Web-Mercator normalization: longitude and latitude in degrees to
`(x, y)` with the whole world mapped onto the unit square. -/
noncomputable def GlobalProjector.mercator_normalized (pos : Position) : ℝ × ℝ :=
  let x := toRadians pos.lon
  let y := Real.arsinh (Real.tan (toRadians pos.lat))
  ((1 + x / Real.pi) / 2, (1 - y / Real.pi) / 2)

/-- Truncating saturating conversion of a float to a `u8`, as performed by
the Rust `as u8` cast (negative values clamp to 0, large values to 255;
truncation towards zero coincides with `max ⌊r⌋ 0` after the clamp). -/
noncomputable def f64_as_u8 (r : ℝ) : ℕ := (min (max ⌊r⌋ 0) 255).toNat

/-- Truncating saturating conversion of a (floored) float to a `u32`, as
performed by the Rust `.floor() as u32` combination. -/
noncomputable def floor_as_u32 (r : ℝ) : ℕ := (min (max ⌊r⌋ 0) (2 ^ 32 - 1)).toNat

/-- The zoom adjustment `(source_tile_size as f64 / TILE_SIZE as f64).log2() as u8`
applied by `GlobalProjector::tile_id` for sources that deliver larger tiles. -/
noncomputable def log2_zoom_adjustment (source_tile_size : ℕ) : ℕ :=
  f64_as_u8 (Real.logb 2 ((source_tile_size : ℝ) / (TILE_SIZE : ℝ)))

/-- Global tile lookup: normalize the position, adjust the requested zoom by
the source tile size factor (a wrapping `u8` subtraction), and floor into the
`2^zoom × 2^zoom` grid (`2u32::pow` wraps modulo `2^32`, the float-to-`u32`
cast saturates). -/
noncomputable def GlobalProjector.tile_id (_g : GlobalProjector) (pos : Position)
    (zoom : ℕ) (source_tile_size : ℕ) : Option TileId :=
  let m := GlobalProjector.mercator_normalized pos
  let adjusted_zoom := (zoom % 256 + 256 - log2_zoom_adjustment source_tile_size) % 256
  let number_of_tiles := ((2 ^ adjusted_zoom % 2 ^ 32 : ℕ) : ℝ)
  let x := floor_as_u32 (m.1 * number_of_tiles)
  let y := floor_as_u32 (m.2 * number_of_tiles)
  Option.some ⟨x, y, adjusted_zoom⟩

/-- Global world-to-bitmap projection: normalized Mercator coordinates scaled
by the total pixel count of the current zoom. -/
noncomputable def GlobalProjector.bitmap_project
    (g : GlobalProjector) (position : Position) : V2 :=
  let m := GlobalProjector.mercator_normalized position
  let tp := total_pixels g.memory.zoom
  ⟨m.1 * tp, m.2 * tp⟩

/-- Global bitmap-to-world projection: recover longitude linearly and
latitude through `sinh` and `atan`. -/
noncomputable def GlobalProjector.bitmap_unproject
    (g : GlobalProjector) (pos : V2) : Position :=
  let number_of_pixels := (2 : ℝ) ^ g.memory.zoom * (TILE_SIZE : ℝ)
  let lon := toDegrees ((pos.x / number_of_pixels * 2 - 1) * Real.pi)
  let lat :=
    toDegrees (Real.arctan (Real.sinh ((-(pos.y / number_of_pixels) * 2 + 1) * Real.pi)))
  Position.from_lon_lat lon lat

/-- Shared screen transform of the global projector. -/
noncomputable def GlobalProjector.bitmap_to_screen
    (g : GlobalProjector) (pos : V2) : V2 :=
  let map_center_projected_position :=
    g.bitmap_project (g.memory.center_mode_position.getD g.my_position)
  pos - map_center_projected_position + g.clip_rect.center

/-- Inverse of the shared screen transform of the global projector. -/
noncomputable def GlobalProjector.bitmap_from_screen
    (g : GlobalProjector) (pos : V2) : V2 :=
  let map_center_projected_position :=
    g.bitmap_project (g.memory.center_mode_position.getD g.my_position)
  map_center_projected_position + (pos - g.clip_rect.center)

/-- Public global projection. -/
noncomputable def GlobalProjector.project (g : GlobalProjector) (position : Position) : V2 :=
  g.bitmap_to_screen (g.bitmap_project position)

/-- Public global unprojection. -/
noncomputable def GlobalProjector.unproject (g : GlobalProjector) (pos : V2) : Position :=
  g.bitmap_unproject (g.bitmap_from_screen pos)

/-- Default `shift` of the projector trait, global instance. -/
noncomputable def GlobalProjector.shift (g : GlobalProjector) (pos : Position) (offset : V2) :
    Position :=
  g.bitmap_unproject (g.bitmap_project pos - offset)

/-- The projector variant: global web-Mercator or local affine. -/
inductive Projector where
  | Global (g : GlobalProjector)
  | Local (l : LocalProjector)

/-- Dispatch of `project` over the projector variant. -/
noncomputable def Projector.project : Projector → Position → V2
  | Projector.Global g, p => g.project p
  | Projector.Local l, p => l.project p

/-- Dispatch of `unproject` over the projector variant. -/
noncomputable def Projector.unproject : Projector → V2 → Position
  | Projector.Global g, p => g.unproject p
  | Projector.Local l, p => l.unproject p

/-- Dispatch of `shift` over the projector variant. -/
noncomputable def Projector.shift : Projector → Position → V2 → Position
  | Projector.Global g, p, o => g.shift p o
  | Projector.Local l, p, o => l.shift p o

/-- Dispatch of `bitmap_project` over the projector variant. -/
noncomputable def Projector.bitmap_project : Projector → Position → V2
  | Projector.Global g, p => g.bitmap_project p
  | Projector.Local l, p => l.bitmap_project p

/-- Dispatch of `bitmap_unproject` over the projector variant. -/
noncomputable def Projector.bitmap_unproject : Projector → V2 → Position
  | Projector.Global g, p => g.bitmap_unproject p
  | Projector.Local l, p => l.bitmap_unproject p

/-- Dispatch of `tile_id` over the projector variant. -/
noncomputable def Projector.tile_id : Projector → Position → ℕ → ℕ → Option TileId
  | Projector.Global g, p, z, s => g.tile_id p z s
  | Projector.Local l, p, z, s => l.tile_id p z s

/-- Claim C7: the local projector's scale ignores its position argument, and
equals the zoom-only factor `unitsPerPoint(zoom) = 0.001 * 2^(20 - zoom)`. -/
theorem claim_C7 (l : LocalProjector) (p q : Position) :
    l.scale_pixel_per_meter p = l.scale_pixel_per_meter q ∧
    l.scale_pixel_per_meter p = LocalProjector.units_per_point l.memory.zoom ∧
    LocalProjector.units_per_point l.memory.zoom =
      0.001 * (2 : ℝ) ^ ((20 : ℝ) - l.memory.zoom) :=
  ⟨rfl, rfl, rfl⟩

/-- Claim C8: the local projector's `tile_id` returns `None` for every
position, zoom level and source tile size. -/
theorem claim_C8 (l : LocalProjector) (pos : Position) (zoom tile_size : ℕ) :
    l.tile_id pos zoom tile_size = Option.none :=
  rfl

/-- Modelled from the spec: `units.rs` is not among the provided sources.  An
`AdjustedPosition` is a base `Position` plus an accumulated pixel offset of a
pending pan; `shift` accumulates a further pixel offset. -/
structure AdjustedPosition where
  position : Position
  offset : V2

def AdjustedPosition.new (position : Position) (offset : V2) : AdjustedPosition :=
  ⟨position, offset⟩

/-- Accumulate a pixel offset into the adjusted position. -/
def AdjustedPosition.shift (p : AdjustedPosition) (offset : V2) : AdjustedPosition :=
  ⟨p.position, p.offset + offset⟩

/-- Model of the UI pointer state read by the drag logic: whether a primary
button drag is in progress this frame, whether a drag just stopped, and this
frame's drag delta in pixels. -/
structure Response where
  dragged_by_primary : Bool
  drag_stopped : Bool
  drag_delta : V2

/-- The center-of-view state machine: following the live position, pinned
exactly, being dragged, or gliding with inertia.  The `f32` decay `amount` is
modelled by a rational so the comparison with zero stays executable. -/
inductive Center where
  | MyPosition
  | Exact (pos : AdjustedPosition)
  | Moving (pos : AdjustedPosition) (direction : V2)
  | Inertia (pos : AdjustedPosition) (direction : V2) (amount : ℚ)

/-- The held adjusted position of every detached variant, `none` when the
view follows the live position. -/
def Center.adjusted_position : Center → Option AdjustedPosition
  | Center.MyPosition => Option.none
  | Center.Exact pos => Option.some pos
  | Center.Moving pos _ => Option.some pos
  | Center.Inertia pos _ _ => Option.some pos

/-- Per-frame drag input handling: a primary button drag puts the center into
`Moving` at the current effective position; the frame a drag stops turns a
`Moving` center into `Inertia` with amount 1; otherwise nothing changes.  The
boolean reports whether the input was consumed. -/
def Center.recalculate_drag (c : Center) (response : Response) (my_position : Position) :
    Center × Bool :=
  if response.dragged_by_primary then
    (Center.Moving
      (c.adjusted_position.getD (AdjustedPosition.new my_position ⟨0, 0⟩))
      response.drag_delta, true)
  else if response.drag_stopped then
    (match c with
      | Center.Moving pos direction => Center.Inertia pos direction 1
      | other => other, true)
  else
    (c, false)

/-- Per-frame movement tick: a `Moving` center advances by its direction, an
`Inertia` center settles into `Exact` once its amount has decayed to zero or
below and otherwise advances by `direction * amount`; the other variants are
untouched and report `false`. -/
def Center.update_movement : Center → Center × Bool
  | Center.Moving pos direction =>
      (Center.Moving (pos.shift direction) direction, true)
  | Center.Inertia pos direction amount =>
      if amount ≤ 0 then
        (Center.Exact pos, true)
      else
        (Center.Inertia (pos.shift (V2.smul (amount : ℝ) direction)) direction amount, true)
  | c => (c, false)

/-- Claim C3: dragging then releasing drives the center through
`MyPosition → Moving → Inertia → Exact` in that order: a frame with a primary
button drag puts any state into `Moving`, the frame the drag ends turns
`Moving` into `Inertia` with amount 1, and a movement update of an `Inertia`
whose amount has decayed to zero or below yields `Exact` holding the last
computed position; neither `recalculate_drag` nor `update_movement` ever
returns a detached center to `MyPosition`, and `MyPosition` and `Exact` are
left unchanged by a tick. -/
theorem claim_C3 :
    (∀ (c : Center) (r : Response) (mp : Position), r.dragged_by_primary = true →
      (Center.recalculate_drag c r mp).1 =
        Center.Moving (c.adjusted_position.getD (AdjustedPosition.new mp ⟨0, 0⟩))
          r.drag_delta) ∧
    (∀ (r : Response) (mp : Position) (pos : AdjustedPosition) (dir : V2),
      r.dragged_by_primary = false → r.drag_stopped = true →
      (Center.recalculate_drag (Center.Moving pos dir) r mp).1 =
        Center.Inertia pos dir 1) ∧
    (∀ (pos : AdjustedPosition) (dir : V2) (amount : ℚ), amount ≤ 0 →
      Center.update_movement (Center.Inertia pos dir amount) = (Center.Exact pos, true)) ∧
    (∀ (c : Center) (r : Response) (mp : Position), c ≠ Center.MyPosition →
      (Center.recalculate_drag c r mp).1 ≠ Center.MyPosition) ∧
    (∀ c : Center, c ≠ Center.MyPosition →
      (Center.update_movement c).1 ≠ Center.MyPosition) ∧
    Center.update_movement Center.MyPosition = (Center.MyPosition, false) ∧
    (∀ pos : AdjustedPosition,
      Center.update_movement (Center.Exact pos) = (Center.Exact pos, false)) := by
  refine ⟨?_, ?_, ?_, ?_, ?_, rfl, fun pos => rfl⟩
  · intro c r mp h
    simp [Center.recalculate_drag, h]
  · intro r mp pos dir h1 h2
    simp [Center.recalculate_drag, h1, h2]
  · intro pos dir amount h
    simp [Center.update_movement, h]
  · intro c r mp hc
    cases c with
    | MyPosition => exact absurd rfl hc
    | Exact pos =>
        by_cases hd : r.dragged_by_primary <;> by_cases hs : r.drag_stopped <;>
          simp [Center.recalculate_drag, hd, hs]
    | Moving pos dir =>
        by_cases hd : r.dragged_by_primary <;> by_cases hs : r.drag_stopped <;>
          simp [Center.recalculate_drag, hd, hs]
    | Inertia pos dir amount =>
        by_cases hd : r.dragged_by_primary <;> by_cases hs : r.drag_stopped <;>
          simp [Center.recalculate_drag, hd, hs]
  · intro c hc
    cases c with
    | MyPosition => exact absurd rfl hc
    | Exact pos => simp [Center.update_movement]
    | Moving pos dir => simp [Center.update_movement]
    | Inertia pos dir amount =>
        by_cases ha : amount ≤ 0 <;> simp [Center.update_movement, ha]

/-- Concrete run of the C3 transitions: a drag frame from `MyPosition`, the
release frame, and a tick of the fully decayed inertia. -/
theorem claim_C3_witness :
    (Center.recalculate_drag Center.MyPosition ⟨true, false, ⟨3, 4⟩⟩ (Position.new 1 2)).1 =
      Center.Moving (AdjustedPosition.new (Position.new 1 2) ⟨0, 0⟩) ⟨3, 4⟩ ∧
    (Center.recalculate_drag
        (Center.Moving (AdjustedPosition.new (Position.new 1 2) ⟨0, 0⟩) ⟨3, 4⟩)
        ⟨false, true, ⟨0, 0⟩⟩ (Position.new 1 2)).1 =
      Center.Inertia (AdjustedPosition.new (Position.new 1 2) ⟨0, 0⟩) ⟨3, 4⟩ 1 ∧
    Center.update_movement
        (Center.Inertia (AdjustedPosition.new (Position.new 1 2) ⟨0, 0⟩) ⟨3, 4⟩ 0) =
      (Center.Exact (AdjustedPosition.new (Position.new 1 2) ⟨0, 0⟩), true) := by
  refine ⟨?_, ?_, ?_⟩
  · exact claim_C3.1 Center.MyPosition ⟨true, false, ⟨3, 4⟩⟩ (Position.new 1 2) rfl
  · exact claim_C3.2.1 ⟨false, true, ⟨0, 0⟩⟩ (Position.new 1 2)
      (AdjustedPosition.new (Position.new 1 2) ⟨0, 0⟩) ⟨3, 4⟩ rfl rfl
  · exact claim_C3.2.2.1 (AdjustedPosition.new (Position.new 1 2) ⟨0, 0⟩) ⟨3, 4⟩ 0 le_rfl

/-- Modelled from the spec: the decoded, renderer-ready image for one tile is
an external collaborator; an abstract token stands in for it. -/
structure Texture where
  token : ℕ
  deriving DecidableEq, Repr

/-- Failure taxonomy of one fetch-and-decode task, as in the `Error` enum of
`download.rs`: transport middleware failure, HTTP-level failure, image decode
failure.  The payloads are diagnostics only and are not carried. -/
inductive Error where
  | HttpMiddleware
  | Http
  | Image
  deriving DecidableEq, Repr

/-- Outcome of one `download_complete` call: whether the loop survives (the
send on the result channel succeeded or was not attempted), what was sent on
the result channel, how many warning lines were logged, and how many repaints
were requested. -/
structure CompleteResult where
  ok : Bool
  sent : Option (TileId × Texture)
  warn_logs : ℕ
  repaints : ℕ
  deriving DecidableEq, Repr

/-- Delivery of one finished download: a success is sent on the result
channel (failing fatally when the receiver is gone) and triggers a repaint; a
failure is logged as a warning and discarded. -/
def download_complete (receiver_alive : Bool) (tile_id : TileId)
    (result : Except Error Texture) : CompleteResult :=
  match result with
  | Except.ok tile =>
      if receiver_alive then ⟨true, Option.some (tile_id, tile), 0, 1⟩
      else ⟨false, Option.none, 0, 0⟩
  | Except.error _ => ⟨true, Option.none, 1, 0⟩

/-- The scheduler's in-flight collection, as in the `Downloads` enum of
`download.rs`: each in-flight fetch future is represented by the `TileId` it
will resolve. -/
inductive Downloads where
  | None
  | Ongoing (dls : List TileId)
  | OngoingSaturated (dls : List TileId)
  deriving DecidableEq, Repr

/-- The in-flight fetch tasks of a scheduler state. -/
def Downloads.inFlight : Downloads → ℕ
  | Downloads.None => 0
  | Downloads.Ongoing dls => dls.length
  | Downloads.OngoingSaturated dls => dls.length

/-- Whether the loop body polls the request channel in this state: the
`None` and `Ongoing` branches await (also) the next request, the
`OngoingSaturated` branch drops the request future unpolled and awaits only
a completion. -/
def Downloads.pulls_requests : Downloads → Bool
  | Downloads.None => true
  | Downloads.Ongoing _ => true
  | Downloads.OngoingSaturated _ => false

/-- One event the scheduler loop can observe: a request arriving on the
request channel, the request channel reporting closure, or the in-flight
fetch at an index completing with a result. -/
inductive Event where
  | request (t : TileId)
  | requestClosed
  | complete (i : ℕ) (r : Except Error Texture)

/-- Whether an event is a plain request arrival. -/
def Event.isRequest : Event → Bool
  | Event.request _ => true
  | _ => false

/-- Result of one pass of the scheduler loop body: the next state (`none`
when the loop terminates fatally), what was sent on the result channel, and
how many warning lines were logged. -/
structure StepResult where
  next : Option Downloads
  sent : Option (TileId × Texture)
  warn_logs : ℕ
  deriving DecidableEq, Repr

/-- One pass of the `download_continuously_impl` loop body, driven by the
event the `select` resolves to.  In `None`, only a request (or closure) can
be observed; in `Ongoing`, a request and the completions race; in
`OngoingSaturated`, requests are left buffered (the state stutters) and only
completions are awaited.  A new fetch task is pushed onto the in-flight
collection, which moves to `OngoingSaturated` when it reaches 6 members; a
completion is removed, delivered through `download_complete`, and the
collection drops back to `Ongoing` (or `None` when empty).  Events that the
state cannot observe (a completion with no such in-flight index) stutter. -/
def sched_step (receiver_alive : Bool) (d : Downloads) (e : Event) : StepResult :=
  match d, e with
  | Downloads.None, Event.request t =>
      ⟨Option.some (Downloads.Ongoing [t]), Option.none, 0⟩
  | Downloads.None, Event.requestClosed => ⟨Option.none, Option.none, 0⟩
  | Downloads.None, Event.complete _ _ =>
      ⟨Option.some Downloads.None, Option.none, 0⟩
  | Downloads.Ongoing dls, Event.request t =>
      let ongoing_downloads := dls ++ [t]
      ⟨Option.some (if ongoing_downloads.length < 6 then Downloads.Ongoing ongoing_downloads
        else Downloads.OngoingSaturated ongoing_downloads), Option.none, 0⟩
  | Downloads.Ongoing _dls, Event.requestClosed => ⟨Option.none, Option.none, 0⟩
  | Downloads.Ongoing dls, Event.complete i r =>
      match dls[i]? with
      | Option.some t =>
          let rest := dls.eraseIdx i
          let c := download_complete receiver_alive t r
          ⟨if c.ok then
              Option.some (if rest.isEmpty then Downloads.None else Downloads.Ongoing rest)
            else Option.none, c.sent, c.warn_logs⟩
      | Option.none => ⟨Option.some (Downloads.Ongoing dls), Option.none, 0⟩
  | Downloads.OngoingSaturated dls, Event.request _ =>
      ⟨Option.some (Downloads.OngoingSaturated dls), Option.none, 0⟩
  | Downloads.OngoingSaturated dls, Event.requestClosed =>
      ⟨Option.some (Downloads.OngoingSaturated dls), Option.none, 0⟩
  | Downloads.OngoingSaturated dls, Event.complete i r =>
      match dls[i]? with
      | Option.some t =>
          let rest := dls.eraseIdx i
          let c := download_complete receiver_alive t r
          ⟨if c.ok then Option.some (Downloads.Ongoing rest) else Option.none,
            c.sent, c.warn_logs⟩
      | Option.none => ⟨Option.some (Downloads.OngoingSaturated dls), Option.none, 0⟩

/-- Run of the scheduler loop over a sequence of observed events, from a
given state; `none` means the loop terminated fatally along the way. -/
def sched_run (receiver_alive : Bool) (d : Downloads) : List Event → Option Downloads
  | [] => Option.some d
  | e :: es =>
      match (sched_step receiver_alive d e).next with
      | Option.some d2 => sched_run receiver_alive d2 es
      | Option.none => Option.none

/-- Number of operator-level error lines `download_continuously` logs for a
run: exactly one when (and only when) the inner loop ended with an error. -/
def download_continuously_error_logs (receiver_alive : Bool) (events : List Event) : ℕ :=
  match sched_run receiver_alive Downloads.None events with
  | Option.some _ => 0
  | Option.none => 1

/-- Structural invariant of the loop: an `Ongoing` collection holds at most 5
in-flight tasks and an `OngoingSaturated` collection exactly 6. -/
def Downloads.wf : Downloads → Prop
  | Downloads.None => True
  | Downloads.Ongoing dls => dls.length ≤ 5
  | Downloads.OngoingSaturated dls => dls.length = 6

theorem sched_step_wf {alive : Bool} {d : Downloads} {e : Event} {d2 : Downloads}
    (hwf : d.wf) (h : (sched_step alive d e).next = Option.some d2) : d2.wf := by
  cases d with
  | None =>
      cases e with
      | request t =>
          simp only [sched_step] at h
          cases h
          simp [Downloads.wf]
      | requestClosed => simp [sched_step] at h
      | complete i r =>
          simp only [sched_step] at h
          cases h
          trivial
  | Ongoing dls =>
      cases e with
      | request t =>
          simp only [sched_step, Option.some.injEq] at h
          subst h
          by_cases hlen : (dls ++ [t]).length < 6
          · rw [if_pos hlen]
            simp only [Downloads.wf]
            omega
          · rw [if_neg hlen]
            simp only [Downloads.wf] at hwf ⊢
            simp only [List.length_append, List.length_cons, List.length_nil] at hlen ⊢
            omega
      | requestClosed => simp [sched_step] at h
      | complete i r =>
          simp only [sched_step] at h
          cases hget : dls[i]? with
          | none =>
              rw [hget] at h
              simp only [Option.some.injEq] at h
              cases h
              exact hwf
          | some t =>
              rw [hget] at h
              by_cases hok : (download_complete alive t r).ok
              · simp only [hok, if_true] at h
                cases h
                by_cases hemp : (dls.eraseIdx i).isEmpty
                · simp only [hemp, if_true]
                  trivial
                · simp only [hemp, if_false]
                  simp only [Downloads.wf] at hwf ⊢
                  exact le_trans (List.length_eraseIdx_le dls i) hwf
              · simp [hok] at h
  | OngoingSaturated dls =>
      cases e with
      | request t =>
          simp only [sched_step, Option.some.injEq] at h
          cases h
          exact hwf
      | requestClosed =>
          simp only [sched_step, Option.some.injEq] at h
          cases h
          exact hwf
      | complete i r =>
          simp only [sched_step] at h
          cases hget : dls[i]? with
          | none =>
              rw [hget] at h
              simp only [Option.some.injEq] at h
              cases h
              exact hwf
          | some t =>
              rw [hget] at h
              have hi : i < dls.length := by
                by_contra hcon
                rw [List.getElem?_eq_none (Nat.le_of_not_lt hcon)] at hget
                exact Option.noConfusion hget
              by_cases hok : (download_complete alive t r).ok
              · simp only [hok, if_true, Option.some.injEq] at h
                cases h
                simp only [Downloads.wf] at hwf ⊢
                rw [List.length_eraseIdx_of_lt hi]
                omega
              · simp [hok] at h

theorem sched_run_wf {alive : Bool} {d : Downloads} (events : List Event)
    (hwf : d.wf) {d2 : Downloads}
    (h : sched_run alive d events = Option.some d2) : d2.wf := by
  induction events generalizing d with
  | nil =>
      simp only [sched_run, Option.some.injEq] at h
      cases h
      exact hwf
  | cons e es ih =>
      simp only [sched_run] at h
      cases hstep : (sched_step alive d e).next with
      | none => rw [hstep] at h; exact Option.noConfusion h
      | some d1 =>
          rw [hstep] at h
          exact ih (sched_step_wf hwf hstep) h

theorem wf_inFlight_le {d : Downloads} (hwf : d.wf) : d.inFlight ≤ 6 := by
  cases d with
  | None => exact Nat.zero_le 6
  | Ongoing dls => simp only [Downloads.wf] at hwf; simp only [Downloads.inFlight]; omega
  | OngoingSaturated dls =>
      simp only [Downloads.wf] at hwf; simp only [Downloads.inFlight]; omega

theorem wf_saturated_of_inFlight_six {d : Downloads} (hwf : d.wf) (h6 : d.inFlight = 6) :
    ∃ dls, d = Downloads.OngoingSaturated dls := by
  cases d with
  | None => simp [Downloads.inFlight] at h6
  | Ongoing dls =>
      simp only [Downloads.wf] at hwf
      simp only [Downloads.inFlight] at h6
      omega
  | OngoingSaturated dls => exact ⟨dls, rfl⟩

theorem sched_run_saturated_requests {alive : Bool} {dls : List TileId}
    (more : List Event) (hreq : ∀ e ∈ more, e.isRequest = true) :
    sched_run alive (Downloads.OngoingSaturated dls) more =
      Option.some (Downloads.OngoingSaturated dls) := by
  induction more with
  | nil => rfl
  | cons e es ih =>
      have he : e.isRequest = true := hreq e (List.mem_cons_self e es)
      have hrest : ∀ x ∈ es, x.isRequest = true :=
        fun x hx => hreq x (List.mem_cons_of_mem e hx)
      cases e with
      | request t =>
          simp only [sched_run, sched_step]
          exact ih hrest
      | requestClosed => simp [Event.isRequest] at he
      | complete i r => simp [Event.isRequest] at he

/-- Claim C1: the fetch scheduler never has more than 6 fetch-and-decode
operations in flight.  Every state reachable from the initial state has at
most 6 in-flight tasks; in a state with 6 in flight the loop does not poll
the request channel; and from a state with 6 in flight, any further burst of
requests with no completion (a source that never completes) leaves the state
unchanged — no 7th task starts before a completion. -/
theorem claim_C1 (alive : Bool) (events : List Event) (d : Downloads)
    (h : sched_run alive Downloads.None events = Option.some d) :
    d.inFlight ≤ 6 ∧
    (d.inFlight = 6 → d.pulls_requests = false) ∧
    (d.inFlight = 6 → ∀ more : List Event, (∀ e ∈ more, e.isRequest = true) →
      sched_run alive d more = Option.some d) := by
  have hwf : d.wf := sched_run_wf events (show Downloads.None.wf from trivial) h
  refine ⟨wf_inFlight_le hwf, ?_, ?_⟩
  · intro h6
    obtain ⟨dls, rfl⟩ := wf_saturated_of_inFlight_six hwf h6
    rfl
  · intro h6 more hreq
    obtain ⟨dls, rfl⟩ := wf_saturated_of_inFlight_six hwf h6
    exact sched_run_saturated_requests more hreq

/-- Concrete run for C1: a burst of seven requests from the initial state
saturates at the first six tile ids; the seventh stays buffered, the
saturated state does not poll the request channel, and an eighth request
alone changes nothing. -/
theorem claim_C1_witness :
    (Downloads.OngoingSaturated
        [⟨1, 0, 0⟩, ⟨2, 0, 0⟩, ⟨3, 0, 0⟩, ⟨4, 0, 0⟩, ⟨5, 0, 0⟩, ⟨6, 0, 0⟩]).inFlight ≤ 6 ∧
    (Downloads.OngoingSaturated
        [⟨1, 0, 0⟩, ⟨2, 0, 0⟩, ⟨3, 0, 0⟩, ⟨4, 0, 0⟩, ⟨5, 0, 0⟩,
          ⟨6, 0, 0⟩]).pulls_requests = false ∧
    sched_run true
        (Downloads.OngoingSaturated
          [⟨1, 0, 0⟩, ⟨2, 0, 0⟩, ⟨3, 0, 0⟩, ⟨4, 0, 0⟩, ⟨5, 0, 0⟩, ⟨6, 0, 0⟩])
        [Event.request ⟨8, 0, 0⟩] =
      Option.some (Downloads.OngoingSaturated
        [⟨1, 0, 0⟩, ⟨2, 0, 0⟩, ⟨3, 0, 0⟩, ⟨4, 0, 0⟩, ⟨5, 0, 0⟩, ⟨6, 0, 0⟩]) := by
  have h := claim_C1 true
    [Event.request ⟨1, 0, 0⟩, Event.request ⟨2, 0, 0⟩, Event.request ⟨3, 0, 0⟩,
      Event.request ⟨4, 0, 0⟩, Event.request ⟨5, 0, 0⟩, Event.request ⟨6, 0, 0⟩,
      Event.request ⟨7, 0, 0⟩]
    (Downloads.OngoingSaturated
      [⟨1, 0, 0⟩, ⟨2, 0, 0⟩, ⟨3, 0, 0⟩, ⟨4, 0, 0⟩, ⟨5, 0, 0⟩, ⟨6, 0, 0⟩])
    (by decide)
  exact ⟨h.1, h.2.1 rfl, h.2.2 rfl [Event.request ⟨8, 0, 0⟩] (by decide)⟩

/-- Claim C4: transport, HTTP-status and decode failures of a fetch task are
each non-fatal: an errored completion sends nothing on the result channel,
logs exactly one warning, removes only the failed task (no retry is issued),
and leaves the loop in a state that polls the request channel again; the loop
body yields termination only when the request channel reports closure or a
successful send fails because the receiver is gone, and the wrapper logs the
termination exactly once. -/
theorem claim_C4 :
    (∀ (alive : Bool) (dls : List TileId) (i : ℕ) (err : Error) (t : TileId),
      dls[i]? = Option.some t →
      sched_step alive (Downloads.Ongoing dls) (Event.complete i (Except.error err)) =
        ⟨Option.some (if (dls.eraseIdx i).isEmpty then Downloads.None
            else Downloads.Ongoing (dls.eraseIdx i)), Option.none, 1⟩) ∧
    (∀ (alive : Bool) (dls : List TileId) (i : ℕ) (err : Error) (t : TileId),
      dls[i]? = Option.some t →
      sched_step alive (Downloads.OngoingSaturated dls)
          (Event.complete i (Except.error err)) =
        ⟨Option.some (Downloads.Ongoing (dls.eraseIdx i)), Option.none, 1⟩) ∧
    (∀ dls : List TileId, (Downloads.Ongoing dls).pulls_requests = true ∧
      Downloads.None.pulls_requests = true) ∧
    (∀ (alive : Bool) (d : Downloads) (e : Event),
      (sched_step alive d e).next = Option.none →
      e = Event.requestClosed ∨
        (alive = false ∧ ∃ i tex, e = Event.complete i (Except.ok tex))) ∧
    (∀ (alive : Bool) (events : List Event),
      download_continuously_error_logs alive events ≤ 1 ∧
      (download_continuously_error_logs alive events = 1 ↔
        sched_run alive Downloads.None events = Option.none)) := by
  refine ⟨?_, ?_, fun dls => ⟨rfl, rfl⟩, ?_, ?_⟩
  · intro alive dls i err t hget
    simp [sched_step, hget, download_complete]
  · intro alive dls i err t hget
    simp [sched_step, hget, download_complete]
  · intro alive d e h
    cases d with
    | None =>
        cases e with
        | request t => simp [sched_step] at h
        | requestClosed => exact Or.inl rfl
        | complete i r => simp [sched_step] at h
    | Ongoing dls =>
        cases e with
        | request t => simp [sched_step] at h
        | requestClosed => exact Or.inl rfl
        | complete i r =>
            cases hget : dls[i]? with
            | none => simp [sched_step, hget] at h
            | some t =>
                cases r with
                | error err => simp [sched_step, hget, download_complete] at h
                | ok tex =>
                    cases alive with
                    | true => simp [sched_step, hget, download_complete] at h
                    | false => exact Or.inr ⟨rfl, i, tex, rfl⟩
    | OngoingSaturated dls =>
        cases e with
        | request t => simp [sched_step] at h
        | requestClosed => simp [sched_step] at h
        | complete i r =>
            cases hget : dls[i]? with
            | none => simp [sched_step, hget] at h
            | some t =>
                cases r with
                | error err => simp [sched_step, hget, download_complete] at h
                | ok tex =>
                    cases alive with
                    | true => simp [sched_step, hget, download_complete] at h
                    | false => exact Or.inr ⟨rfl, i, tex, rfl⟩
  · intro alive events
    cases h : sched_run alive Downloads.None events with
    | some d => simp [download_continuously_error_logs, h]
    | none => simp [download_continuously_error_logs, h]

/-- Concrete case of C4 at the spec's example: a transport failure for the
single in-flight tile `{x:1, y:2, zoom:3}` sends nothing, logs one warning,
and leaves the loop idle and polling for requests again. -/
theorem claim_C4_witness :
    sched_step true (Downloads.Ongoing [⟨1, 2, 3⟩])
        (Event.complete 0 (Except.error Error.HttpMiddleware)) =
      ⟨Option.some Downloads.None, Option.none, 1⟩ ∧
    Downloads.None.pulls_requests = true := by
  have h := claim_C4.1 true [⟨1, 2, 3⟩] 0 Error.HttpMiddleware ⟨1, 2, 3⟩ rfl
  exact ⟨by simpa using h, (claim_C4.2.2.1 []).2⟩

theorem global_from_to_screen (g : GlobalProjector) (v off : V2) :
    g.bitmap_from_screen (g.bitmap_to_screen v - off) = v - off := by
  simp only [GlobalProjector.bitmap_from_screen, GlobalProjector.bitmap_to_screen]
  ext <;> simp <;> ring

theorem global_from_to_screen_id (g : GlobalProjector) (v : V2) :
    g.bitmap_from_screen (g.bitmap_to_screen v) = v := by
  simp only [GlobalProjector.bitmap_from_screen, GlobalProjector.bitmap_to_screen]
  ext <;> simp

theorem local_from_to_screen (l : LocalProjector) (v off : V2) :
    l.bitmap_from_screen (l.bitmap_to_screen v - off) = v - off := by
  simp only [LocalProjector.bitmap_from_screen, LocalProjector.bitmap_to_screen]
  ext <;> simp <;> ring

/-- Claim C6: for both projector strategies, `shift` coincides with
`unproject (project pos - offset)` — the composition of the public
projection, a pixel subtraction, and the public unprojection — and with the
bitmap-layer composition `bitmap_unproject (bitmap_project pos - offset)` it
is implemented by. -/
theorem claim_C6 (proj : Projector) (pos : Position) (offset : V2) :
    proj.shift pos offset = proj.unproject (proj.project pos - offset) ∧
    proj.shift pos offset = proj.bitmap_unproject (proj.bitmap_project pos - offset) := by
  cases proj with
  | Global g =>
      refine ⟨?_, rfl⟩
      show g.bitmap_unproject (g.bitmap_project pos - offset) =
        g.bitmap_unproject (g.bitmap_from_screen (g.bitmap_to_screen (g.bitmap_project pos) - offset))
      rw [global_from_to_screen]
  | Local l =>
      refine ⟨?_, rfl⟩
      show l.bitmap_unproject (l.bitmap_project pos - offset) =
        l.bitmap_unproject (l.bitmap_from_screen (l.bitmap_to_screen (l.bitmap_project pos) - offset))
      rw [local_from_to_screen]

theorem GlobalProjector.bitmap_round_trip (g : GlobalProjector) (p : Position)
    (h1 : -85 < p.lat) (h2 : p.lat < 85) :
    g.bitmap_unproject (g.bitmap_project p) = p := by
  have hpi := Real.pi_pos
  have hpin := Real.pi_ne_zero
  have hN : (0 : ℝ) < (2 : ℝ) ^ g.memory.zoom * (TILE_SIZE : ℝ) :=
    mul_pos (Real.rpow_pos_of_pos two_pos _) (by norm_num [TILE_SIZE])
  have hNne := hN.ne'
  have h1y : (-85 : ℝ) < p.y := h1
  have h2y : p.y < (85 : ℝ) := h2
  have h180 : (0 : ℝ) < Real.pi / 180 := by linarith
  have ha1 := mul_lt_mul_of_pos_right h1y h180
  have ha2 := mul_lt_mul_of_pos_right h2y h180
  have hlr1 : -(Real.pi / 2) < p.y * (Real.pi / 180) := by linarith
  have hlr2 : p.y * (Real.pi / 180) < Real.pi / 2 := by linarith
  ext
  · show ((1 + p.x * (Real.pi / 180) / Real.pi) / 2 *
        ((2 : ℝ) ^ g.memory.zoom * (TILE_SIZE : ℝ)) /
        ((2 : ℝ) ^ g.memory.zoom * (TILE_SIZE : ℝ)) * 2 - 1) * Real.pi *
        (180 / Real.pi) = p.x
    field_simp
    ring
  · show Real.arctan (Real.sinh
        ((-((1 - Real.arsinh (Real.tan (p.y * (Real.pi / 180))) / Real.pi) / 2 *
            ((2 : ℝ) ^ g.memory.zoom * (TILE_SIZE : ℝ)) /
            ((2 : ℝ) ^ g.memory.zoom * (TILE_SIZE : ℝ))) * 2 + 1) * Real.pi)) *
        (180 / Real.pi) = p.y
    have harg : (-((1 - Real.arsinh (Real.tan (p.y * (Real.pi / 180))) / Real.pi) / 2 *
        ((2 : ℝ) ^ g.memory.zoom * (TILE_SIZE : ℝ)) /
        ((2 : ℝ) ^ g.memory.zoom * (TILE_SIZE : ℝ))) * 2 + 1) * Real.pi =
        Real.arsinh (Real.tan (p.y * (Real.pi / 180))) := by
      field_simp
      ring
    rw [harg, Real.sinh_arsinh, Real.arctan_tan hlr1 hlr2]
    field_simp

/-- Claim C2: for every position with latitude strictly between −85 and 85
degrees and every zoom in [0, 20], the global projector's round trip
`unproject (project position)` recovers the position (exactly, in the real
number model of the floating point computation). -/
theorem claim_C2 (g : GlobalProjector) (p : Position)
    (h1 : -85 < p.lat) (h2 : p.lat < 85)
    (hz1 : 0 ≤ g.memory.zoom) (hz2 : g.memory.zoom ≤ 20) :
    g.unproject (g.project p) = p := by
  show g.bitmap_unproject (g.bitmap_from_screen (g.bitmap_to_screen (g.bitmap_project p))) = p
  rw [global_from_to_screen_id]
  exact g.bitmap_round_trip p h1 h2

/-- A concrete global projector used to instantiate the projector claims:
zoom 1, no detached center, viewport centered at the origin. -/
def testGlobalProjector : GlobalProjector :=
  ⟨⟨⟨0, 0⟩⟩, ⟨1, Option.none⟩, Position.new 0 0⟩

/-- Concrete round trip for C2: the origin at zoom 1 comes back exactly. -/
theorem claim_C2_witness :
    testGlobalProjector.unproject (testGlobalProjector.project (Position.new 0 0)) =
      Position.new 0 0 :=
  claim_C2 testGlobalProjector (Position.new 0 0)
    (show (-85 : ℝ) < 0 by norm_num) (show (0 : ℝ) < 85 by norm_num)
    (show (0 : ℝ) ≤ 1 by norm_num) (show (1 : ℝ) ≤ 20 by norm_num)

theorem mercator_normalized_origin :
    GlobalProjector.mercator_normalized (Position.new 0 0) = (1 / 2, 1 / 2) := by
  simp [GlobalProjector.mercator_normalized, toRadians, Position.lon, Position.lat,
    Position.new, Real.tan_zero, Real.arsinh_zero]

theorem log2_zoom_adjustment_256 : log2_zoom_adjustment 256 = 0 := by
  have h : ((256 : ℕ) : ℝ) / ((TILE_SIZE : ℕ) : ℝ) = 1 := by norm_num [TILE_SIZE]
  show f64_as_u8 (Real.logb 2 (((256 : ℕ) : ℝ) / ((TILE_SIZE : ℕ) : ℝ))) = 0
  rw [h, Real.logb_one]
  simp [f64_as_u8]

/-- Claim C9: the tile id of the origin (`lon = 0°`, `lat = 0°`) at zoom 0
with a 256 pixel source tile size is exactly `{x: 0, y: 0, zoom: 0}`. -/
theorem claim_C9 (g : GlobalProjector) :
    g.tile_id (Position.new 0 0) 0 256 = Option.some ⟨0, 0, 0⟩ := by
  simp only [GlobalProjector.tile_id, mercator_normalized_origin, log2_zoom_adjustment_256]
  norm_num [floor_as_u32, Int.floor_eq_zero_iff, Set.mem_Ico]

theorem tan85_lt_sinh_pi : Real.tan (85 * (Real.pi / 180)) < Real.sinh Real.pi := by
  have hpi := Real.pi_pos
  have hpi6 := Real.pi_gt_d6
  have h85 : 85 * (Real.pi / 180) = Real.pi / 2 - Real.pi / 36 := by ring
  have htan : Real.tan (85 * (Real.pi / 180)) = (Real.tan (Real.pi / 36))⁻¹ := by
    rw [h85, Real.tan_pi_div_two_sub]
  have h36pos : 0 < Real.pi / 36 := by linarith
  have h36lt : Real.pi / 36 < Real.pi / 2 := by linarith
  have hlt := Real.lt_tan h36pos h36lt
  have hinv : (Real.tan (Real.pi / 36))⁻¹ < (Real.pi / 36)⁻¹ := inv_lt_inv_of_lt h36pos hlt
  have h36pi : (Real.pi / 36)⁻¹ < 11.46 := by
    rw [inv_div, div_lt_iff hpi]
    linarith
  have hexp3 : (20.085 : ℝ) < Real.exp 3 := by
    have h3 : Real.exp (3 : ℝ) = Real.exp 1 ^ (3 : ℕ) := by
      rw [← Real.exp_nat_mul]
      norm_num
    have hcube : (2.7182818283 : ℝ) ^ (3 : ℕ) < Real.exp 1 ^ (3 : ℕ) := by
      gcongr
      exact Real.exp_one_gt_d9
    rw [h3]
    calc (20.085 : ℝ) < (2.7182818283 : ℝ) ^ (3 : ℕ) := by norm_num
      _ < _ := hcube
  have hexp014 : (1.1466 : ℝ) < Real.exp 0.141592 := by
    have h2 : Real.exp (0.141592 : ℝ) = Real.exp 0.070796 ^ (2 : ℕ) := by
      rw [← Real.exp_nat_mul]
      norm_num
    have hsq : (1.070796 : ℝ) ^ (2 : ℕ) ≤ Real.exp 0.070796 ^ (2 : ℕ) := by
      gcongr
      linarith [Real.add_one_le_exp (0.070796 : ℝ)]
    rw [h2]
    calc (1.1466 : ℝ) < (1.070796 : ℝ) ^ (2 : ℕ) := by norm_num
      _ ≤ _ := hsq
  have hexppi : (23.02 : ℝ) < Real.exp Real.pi := by
    have hmono : Real.exp 3.141592 < Real.exp Real.pi := Real.exp_lt_exp.mpr hpi6
    have hsplit : Real.exp (3.141592 : ℝ) = Real.exp 3 * Real.exp 0.141592 := by
      rw [← Real.exp_add]
      norm_num
    nlinarith
  have hexpnegpi : Real.exp (-Real.pi) < 0.05 := by
    rw [Real.exp_neg]
    have h23 : (23 : ℝ) < Real.exp Real.pi := by linarith
    have hinv23 := inv_lt_inv_of_lt (show (0 : ℝ) < 23 by norm_num) h23
    calc (Real.exp Real.pi)⁻¹ < (23 : ℝ)⁻¹ := hinv23
      _ < 0.05 := by norm_num
  have hsinh : (11.46 : ℝ) < Real.sinh Real.pi := by
    rw [Real.sinh_eq]
    linarith
  calc Real.tan (85 * (Real.pi / 180)) = (Real.tan (Real.pi / 36))⁻¹ := htan
    _ < (Real.pi / 36)⁻¹ := hinv
    _ < 11.46 := h36pi
    _ < Real.sinh Real.pi := hsinh

theorem mercator_y_bounds (lat : ℝ) (h1 : -85 < lat) (h2 : lat < 85) :
    0 < (1 - Real.arsinh (Real.tan (lat * (Real.pi / 180))) / Real.pi) / 2 ∧
    (1 - Real.arsinh (Real.tan (lat * (Real.pi / 180))) / Real.pi) / 2 < 1 := by
  have hpi := Real.pi_pos
  have h180 : (0 : ℝ) < Real.pi / 180 := by linarith
  have hrad_lt := mul_lt_mul_of_pos_right h2 h180
  have hrad_gt := mul_lt_mul_of_pos_right h1 h180
  have h85half : 85 * (Real.pi / 180) < Real.pi / 2 := by linarith
  have hneghalf : -(Real.pi / 2) < lat * (Real.pi / 180) := by linarith
  have hhalf : lat * (Real.pi / 180) < Real.pi / 2 := by linarith
  have hub : Real.tan (lat * (Real.pi / 180)) < Real.sinh Real.pi :=
    lt_trans (Real.tan_lt_tan_of_lt_of_lt_pi_div_two hneghalf h85half hrad_lt)
      tan85_lt_sinh_pi
  have hlb : -Real.sinh Real.pi < Real.tan (lat * (Real.pi / 180)) := by
    have hneg85 : -(Real.pi / 2) < -(85 * (Real.pi / 180)) := by linarith
    have hmono := Real.tan_lt_tan_of_lt_of_lt_pi_div_two hneg85 hhalf (by linarith)
    rw [Real.tan_neg] at hmono
    linarith [tan85_lt_sinh_pi]
  have ha_ub : Real.arsinh (Real.tan (lat * (Real.pi / 180))) < Real.pi := by
    have := Real.arsinh_lt_arsinh.mpr hub
    rwa [Real.arsinh_sinh] at this
  have ha_lb : -Real.pi < Real.arsinh (Real.tan (lat * (Real.pi / 180))) := by
    have hs : -Real.sinh Real.pi = Real.sinh (-Real.pi) := by rw [Real.sinh_neg]
    have := Real.arsinh_lt_arsinh.mpr (hs ▸ hlb)
    rwa [Real.arsinh_sinh] at this
  have hdiv_ub : Real.arsinh (Real.tan (lat * (Real.pi / 180))) / Real.pi < 1 :=
    (div_lt_one hpi).mpr ha_ub
  have hdiv_lb : -1 < Real.arsinh (Real.tan (lat * (Real.pi / 180))) / Real.pi := by
    rw [lt_div_iff hpi]
    linarith
  constructor <;> linarith

theorem mercator_x_bounds (lon : ℝ) (h1 : -180 ≤ lon) (h2 : lon < 180) :
    0 ≤ (1 + lon * (Real.pi / 180) / Real.pi) / 2 ∧
    (1 + lon * (Real.pi / 180) / Real.pi) / 2 < 1 := by
  have hpi := Real.pi_pos
  have hpin := Real.pi_ne_zero
  have hsimp : lon * (Real.pi / 180) / Real.pi = lon / 180 := by
    field_simp
    ring
  rw [hsimp]
  constructor <;> linarith

theorem floor_as_u32_lt_of_lt {m : ℝ} {n : ℕ} (h0 : 0 ≤ m) (h1 : m < 1) (hn : 0 < n) :
    floor_as_u32 (m * n) < n := by
  unfold floor_as_u32
  have hnR : (0 : ℝ) < (n : ℝ) := by exact_mod_cast hn
  have hfl : ⌊m * (n : ℝ)⌋ < (n : ℤ) := by
    apply Int.floor_lt.mpr
    push_cast
    nlinarith
  have hge : 0 ≤ ⌊m * (n : ℝ)⌋ := Int.floor_nonneg.mpr (mul_nonneg h0 hnR.le)
  omega

theorem floor_as_u32_zero_arg : floor_as_u32 0 = 0 := by
  simp [floor_as_u32]

theorem log2_zoom_adjustment_le_24 {sts : ℕ} (h : sts < 2 ^ 32) :
    log2_zoom_adjustment sts ≤ 24 := by
  have hts : ((TILE_SIZE : ℕ) : ℝ) = 256 := by norm_num [TILE_SIZE]
  unfold log2_zoom_adjustment f64_as_u8
  rw [hts]
  rcases Nat.eq_zero_or_pos sts with h0 | hpos
  · subst h0
    norm_num [Real.logb_zero]
  · have hposR : (0 : ℝ) < (sts : ℝ) / 256 := by positivity
    have h225 : (2 : ℝ) ^ (25 : ℝ) = ((2 ^ 25 : ℕ) : ℝ) := by
      rw [show (25 : ℝ) = ((25 : ℕ) : ℝ) by norm_num, Real.rpow_natCast]
      norm_num
    have hlt : Real.logb 2 ((sts : ℝ) / 256) < 25 := by
      rw [Real.logb_lt_iff_lt_rpow (by norm_num) hposR, h225]
      rw [div_lt_iff (by norm_num : (0 : ℝ) < 256)]
      have : (sts : ℝ) < ((2 ^ 32 : ℕ) : ℝ) := by exact_mod_cast h
      norm_num at this ⊢
      linarith
    have hfl : ⌊Real.logb 2 ((sts : ℝ) / 256)⌋ ≤ 24 := by
      have := Int.floor_lt.mpr (show Real.logb 2 ((sts : ℝ) / 256) < ((25 : ℤ) : ℝ) by
        exact_mod_cast hlt)
      omega
    omega

theorem mercator_normalized_lon180 :
    GlobalProjector.mercator_normalized (Position.new 180 0) = (1, 1 / 2) := by
  have hpin := Real.pi_ne_zero
  unfold GlobalProjector.mercator_normalized
  simp only [toRadians, Position.lon, Position.lat, Position.new, Real.tan_zero,
    Real.arsinh_zero, Prod.mk.injEq]
  constructor
  · field_simp
  · norm_num

/-- Counterexample to claim C5 as stated: at longitude 180° the normalized
Mercator x coordinate is exactly 1, so the tile id at zoom 0 with a 256 pixel
source tile has `x = 1`, which is not in `[0, 2^0) = {0}`. -/
theorem claim_C5_counterexample :
    testGlobalProjector.tile_id (Position.new 180 0) 0 256 = Option.some ⟨1, 0, 0⟩ ∧
    ¬ ((1 : ℕ) < 2 ^ (0 : ℕ)) := by
  constructor
  · simp only [GlobalProjector.tile_id, mercator_normalized_lon180,
      log2_zoom_adjustment_256]
    norm_num [floor_as_u32, Int.floor_one, Int.floor_eq_zero_iff, Set.mem_Ico]
  · decide

/-- Claim C5, amended: for positions with longitude in `[-180, 180)` and
latitude in `(-85, 85)` (and a source tile size in the `u32` range, as the
Rust parameter type enforces), every `TileId` the global projector returns
has `x` and `y` in `[0, 2^zoom)` for the requested zoom. -/
theorem claim_C5_amended (g : GlobalProjector) (pos : Position)
    (zoom source_tile_size : ℕ)
    (hlon1 : -180 ≤ pos.lon) (hlon2 : pos.lon < 180)
    (hlat1 : -85 < pos.lat) (hlat2 : pos.lat < 85)
    (hsts : source_tile_size < 2 ^ 32)
    (t : TileId) (ht : g.tile_id pos zoom source_tile_size = Option.some t) :
    t.x < 2 ^ zoom ∧ t.y < 2 ^ zoom := by
  have hx := mercator_x_bounds pos.lon hlon1 hlon2
  have hy := mercator_y_bounds pos.lat hlat1 hlat2
  have hmx1 : (GlobalProjector.mercator_normalized pos).1 =
      (1 + pos.lon * (Real.pi / 180) / Real.pi) / 2 := rfl
  have hmx2 : (GlobalProjector.mercator_normalized pos).2 =
      (1 - Real.arsinh (Real.tan (pos.lat * (Real.pi / 180))) / Real.pi) / 2 := rfl
  simp only [GlobalProjector.tile_id, Option.some.injEq] at ht
  subst ht
  have hA := log2_zoom_adjustment_le_24 hsts
  have hzoom_le : 2 ^ ((zoom % 256 + 256 - log2_zoom_adjustment source_tile_size) % 256) %
      2 ^ 32 = 0 ∨
      ((zoom % 256 + 256 - log2_zoom_adjustment source_tile_size) % 256 ≤ zoom ∧
        2 ^ ((zoom % 256 + 256 - log2_zoom_adjustment source_tile_size) % 256) % 2 ^ 32 =
          2 ^ ((zoom % 256 + 256 - log2_zoom_adjustment source_tile_size) % 256)) := by
    by_cases hwrap : log2_zoom_adjustment source_tile_size ≤ zoom % 256
    · by_cases h32 : (zoom % 256 + 256 - log2_zoom_adjustment source_tile_size) % 256 < 32
      · right
        constructor
        · omega
        · exact Nat.mod_eq_of_lt (Nat.pow_lt_pow_right (by norm_num) h32)
      · left
        exact Nat.mod_eq_zero_of_dvd (pow_dvd_pow 2 (by omega))
    · left
      exact Nat.mod_eq_zero_of_dvd (pow_dvd_pow 2 (by omega))
  rcases hzoom_le with hzero | ⟨hle, hid⟩
  · rw [hzero]
    have hcast : ((0 : ℕ) : ℝ) = 0 := by norm_num
    simp only [hcast, mul_zero, floor_as_u32_zero_arg]
    exact ⟨pow_pos (by norm_num) zoom, pow_pos (by norm_num) zoom⟩
  · rw [hid]
    have hpow_le : 2 ^ ((zoom % 256 + 256 - log2_zoom_adjustment source_tile_size) % 256) ≤
        2 ^ zoom := Nat.pow_le_pow_right (by norm_num) hle
    have hpos : 0 < 2 ^ ((zoom % 256 + 256 - log2_zoom_adjustment source_tile_size) % 256) :=
      pow_pos (by norm_num) _
    constructor
    · exact lt_of_lt_of_le
        (by
          rw [hmx1]
          exact floor_as_u32_lt_of_lt hx.1 hx.2 hpos) hpow_le
    · exact lt_of_lt_of_le
        (by
          rw [hmx2]
          exact floor_as_u32_lt_of_lt hy.1.le hy.2 hpos) hpow_le

/-- Concrete instance of the amended C5: the origin at zoom 1 with a 256
pixel source tile yields tile `{x:1, y:1, zoom:1}`, whose coordinates are
below `2^1`. -/
theorem claim_C5_witness :
    (TileId.mk 1 1 1).x < 2 ^ 1 ∧ (TileId.mk 1 1 1).y < 2 ^ 1 :=
  claim_C5_amended testGlobalProjector (Position.new 0 0) 1 256
    (show (-180 : ℝ) ≤ 0 by norm_num) (show (0 : ℝ) < 180 by norm_num)
    (show (-85 : ℝ) < 0 by norm_num) (show (0 : ℝ) < 85 by norm_num)
    (by norm_num) ⟨1, 1, 1⟩
    (by
      simp only [GlobalProjector.tile_id, mercator_normalized_origin,
        log2_zoom_adjustment_256]
      norm_num [floor_as_u32, Int.floor_one])

theorem log2_zoom_adjustment_512 : log2_zoom_adjustment 512 = 1 := by
  have h : ((512 : ℕ) : ℝ) / ((TILE_SIZE : ℕ) : ℝ) = 2 := by norm_num [TILE_SIZE]
  show f64_as_u8 (Real.logb 2 (((512 : ℕ) : ℝ) / ((TILE_SIZE : ℕ) : ℝ))) = 1
  rw [h, Real.logb_self_eq_one (by norm_num)]
  simp [f64_as_u8]

/-- Claim C10: `GlobalProjector::tile_id` adjusts the requested zoom by the
unsigned 8 bit truncation of `log2(source_tile_size / 256)`; whenever that
adjustment does not exceed the requested zoom (no `u8` underflow), the
returned tile's zoom equals the requested zoom minus the adjustment — and a
512 pixel source tile has adjustment 1, so requesting zoom 0 with it
violates the precondition. -/
theorem claim_C10 :
    (∀ (g : GlobalProjector) (pos : Position) (zoom source_tile_size : ℕ),
      zoom ≤ 255 → log2_zoom_adjustment source_tile_size ≤ zoom →
      ∃ t : TileId, g.tile_id pos zoom source_tile_size = Option.some t ∧
        t.zoom = zoom - log2_zoom_adjustment source_tile_size) ∧
    ¬ log2_zoom_adjustment 512 ≤ 0 := by
  constructor
  · intro g pos zoom source_tile_size hz hadj
    refine ⟨_, rfl, ?_⟩
    show (zoom % 256 + 256 - log2_zoom_adjustment source_tile_size) % 256 =
      zoom - log2_zoom_adjustment source_tile_size
    omega
  · rw [log2_zoom_adjustment_512]
    omega

/-- Concrete instance of C10: requesting zoom 1 with a 512 pixel source tile
satisfies the precondition and yields a tile at zoom 0. -/
theorem claim_C10_witness :
    ∃ t : TileId, testGlobalProjector.tile_id (Position.new 0 0) 1 512 = Option.some t ∧
      t.zoom = 1 - log2_zoom_adjustment 512 :=
  claim_C10.1 testGlobalProjector (Position.new 0 0) 1 512 (by norm_num)
    (le_of_eq log2_zoom_adjustment_512)

end Walkers
